import Mathlib

/-!
Verification development for the `stunning-solana` deployment orchestrator
(`grok.copilot.ts`).  The definitions below are a shallow embedding of the
source: external collaborators (ledger reads, relayer transport, instruction
builders) are modelled as explicit inputs, file-system state (the `.cache`
checkpoint and identity files) is threaded as an explicit `Cache` value, and
each step executor is a pure function from its inputs to the cache after the
step, the list of transactions it handed to the relayer, the number of real
relayer dispatches it performed, and its outcome.
-/

namespace StunningSolana

/-- Addresses (base58 public keys) are modelled as plain strings. -/
abbrev Pubkey := String

/-- The hard-coded treasury owner address (`OWNER_ADDRESS` in the source). -/
def OWNER_ADDRESS : Pubkey := "EdFC98d1BBhJkeh7KDq26TwEGLeznhoyYsY6Y8LFY4y6"

/-- What the external world does on one attempt of the `sendViaRelayer` retry
loop: the `fetch`/`res.json()` pair throws, the relayer answers
`success = false` (with `j.error` when present), the relayer accepts but
`confirmTransaction` throws (validity window expired), or the relayer accepts
and the ledger confirms the transaction. -/
inductive AttemptOutcome where
  | fetchError (m : String)
  | relayRejected (err : Option String)
  | confirmFailed (sig : String) (m : String)
  | accepted (sig : String)
deriving Repr, DecidableEq

/-- Whether the attempt reaches the `return j.txSignature` line. -/
def isAccepted : AttemptOutcome → Bool
  | .accepted _ => true
  | _ => false

/-- The message of the error thrown inside the `try` block on a failing
attempt, mirroring `new Error(j.error or Relayer error (attempt n))` for a
relayer rejection and the underlying message otherwise. -/
def failureMsg (attempt : Nat) : AttemptOutcome → String
  | .fetchError m => m
  | .relayRejected err => err.getD ("Relayer error (attempt " ++ toString attempt ++ ")")
  | .confirmFailed _ m => m
  | .accepted _ => ""

/-- Number of `confirmTransaction` calls a single attempt performs. -/
def attemptConfirms : AttemptOutcome → Nat
  | .accepted _ => 1
  | .confirmFailed _ _ => 1
  | _ => 0

/-- Observable trace of one `sendViaRelayer` call: its result (`Except` error
message or settled signature), the number of `getLatestBlockhash` calls, the
number of POSTs to the relayer endpoint, the number of `confirmTransaction`
waits, and the list of `setTimeout` sleeps (in milliseconds) it performed. -/
structure RelayTrace where
  result : Except String String
  anchorFetches : Nat
  relayPosts : Nat
  confirmWaits : Nat
  sleepsMs : List Nat
deriving Repr

/-- The `for (let attempt = 1; attempt <= 3; attempt++)` loop of
`sendViaRelayer`.  `fuel` is the number of iterations remaining (3 at entry);
`attempt` is the loop counter.  On a failing attempt the code rethrows at
`attempt === 3` and otherwise sleeps 1000 ms and retries; every failure,
including a relayer rejection and a failed confirmation wait, takes the same
`catch` path. -/
def relayAttempt (outs : Nat → AttemptOutcome) : Nat → Nat → RelayTrace
  | 0, _ => ⟨.error "Relayer unreachable", 0, 0, 0, []⟩
  | fuel + 1, attempt =>
    match outs attempt with
    | .accepted sig => ⟨.ok sig, 0, 1, 1, []⟩
    | o =>
      let m := failureMsg attempt o
      if attempt == 3 then
        ⟨.error ("Relayer failed after 3 attempts: " ++ m), 0, 1, attemptConfirms o, []⟩
      else
        let r := relayAttempt outs fuel (attempt + 1)
        ⟨r.result, 0, r.relayPosts + 1, r.confirmWaits + attemptConfirms o, 1000 :: r.sleepsMs⟩

/-- The sentinel signature returned in dry-run mode. -/
def DRY_RUN_SIGNATURE : String := "DRY_RUN_SIGNATURE"

/-- Shallow embedding of `sendViaRelayer`.  The recency anchor
(`getLatestBlockhash`) is resolved once, before the dry-run check; in dry-run
mode the function short-circuits after serialization with the sentinel
signature and performs no relayer POST and no confirmation wait; otherwise it
runs the three-attempt retry loop.  `outs` gives the external outcome of each
attempt. -/
def sendViaRelayer (dryRun : Bool) (outs : Nat → AttemptOutcome) : RelayTrace :=
  if dryRun then
    ⟨.ok DRY_RUN_SIGNATURE, 1, 0, 0, []⟩
  else
    let r := relayAttempt outs 3 1
    ⟨r.result, r.anchorFetches + 1, r.relayPosts, r.confirmWaits, r.sleepsMs⟩

/-- Live ledger state as seen through the read-only collaborator calls the
source makes: `getAccountInfo` (account present or not),
`getTokenAccountBalance` (base-unit amount of a token account), and the mint
and freeze authorities returned for the deployed mint. -/
structure Ledger where
  accountExists : Pubkey → Bool
  tokenBalance : Pubkey → Nat
  mintAuthority : Option Pubkey
  freezeAuthority : Option Pubkey

/-- The local `.cache` directory: `mint.json` (the deployment checkpoint,
holding the mint address when present) and `user_auth.json` (the persisted
signing identity, represented by its public key when present). -/
structure Cache where
  mintCache : Option Pubkey
  userAuth : Option Pubkey
deriving Repr, DecidableEq

/-- The environment variables the source reads via `process.env`.  A JS value
that is unset or empty (falsy) is modelled as `none`.  `dryRun` holds the raw
`DRY_RUN` variable; the submitter compares it against the string "true". -/
structure EnvVars where
  rpcUrl : Option String
  relayerUrl : Option String
  relayerPubkey : Option String
  treasuryPubkey : Option String
  daoPubkey : Option Pubkey
  authorityMode : Option String
  dryRun : Option String
  relayerApiKey : Option String
deriving Repr, DecidableEq

/-- The `process.env.DRY_RUN === 'true'` test of `sendViaRelayer`. -/
def dryRunEnabled (e : EnvVars) : Bool := e.dryRun == some "true"

/-- Metadata PDA derivation (`findMetadataPda`), modelled as an injective
encoding of the seeds. -/
def findMetadataPda (mint : Pubkey) : Pubkey := "metadata/" ++ mint

/-- Associated-token-address derivation (`findAssociatedTokenAddress`),
modelled as an injective encoding of the seeds. -/
def findAssociatedTokenAddress (owner mint : Pubkey) : Pubkey :=
  "ata/" ++ owner ++ "/" ++ mint

/-- Shallow embedding of `loadOrCreateUserAuth`: returns the persisted
identity when the file exists, otherwise generates `freshKey`, writes it, and
returns it. -/
def loadOrCreateUserAuth (freshKey : Pubkey) (c : Cache) : Pubkey × Cache :=
  match c.userAuth with
  | some k => (k, c)
  | none => (freshKey, { c with userAuth := some freshKey })

/-- The instructions the step executors place in transactions, standing for
the opaque payloads returned by the external builder collaborators. -/
inductive Ix where
  | createMintIx (mint mintAuth freezeAuth : Pubkey) (decimals : Nat)
  | createAtaIx (owner mint : Pubkey)
  | mintToIx (mint dest authority : Pubkey) (amount : Nat)
  | createMetadataIx (pda mint : Pubkey)
  | updateMetadataIx (pda : Pubkey)
  | setAuthorityIx (mint currentAuth : Pubkey) (authType : String) (newAuthority : Option Pubkey)
deriving Repr, DecidableEq

/-- Errors a step executor can throw. -/
inductive StepError where
  | mintNotCreated
  | mintNotFound
  | relayError (m : String)
deriving Repr, DecidableEq

/-- Result of running one step executor: the cache after the step, the
transactions handed to `sendViaRelayer` (each a list of instructions, in
order), the number of real POSTs to the relayer those calls performed, and
the step's outcome. -/
structure StepRun (α : Type) where
  cacheAfter : Cache
  submissions : List (List Ix)
  relayPosts : Nat
  outcome : Except StepError α

/-- The fixed target total supply: 1,000,000,000 tokens at 9 decimals
(`BigInt(1000000000) * BigInt(10 ** 9)` in the source). -/
def TARGET_SUPPLY : Nat := 1000000000 * 10 ^ 9

/-- Shallow embedding of `createTokenMint`.  It loads (or creates) the user
identity, and when the `mint.json` checkpoint exists and its cached address
still resolves to an account on the live ledger it returns that address
without submitting.  Otherwise it generates a fresh mint keypair
(`freshMint`), submits the creation transaction via the relayer, and writes
the fresh mint address to the checkpoint unless the returned signature is the
dry-run sentinel. -/
def createTokenMint (dry : Bool) (freshKey freshMint : Pubkey) (c : Cache) (l : Ledger)
    (outs : Nat → AttemptOutcome) : StepRun Pubkey :=
  let p := loadOrCreateUserAuth freshKey c
  let userAuth := p.1
  let c1 := p.2
  let fresh : StepRun Pubkey :=
    let tx := [Ix.createMintIx freshMint userAuth userAuth 9]
    let t := sendViaRelayer dry outs
    match t.result with
    | .error m => ⟨c1, [tx], t.relayPosts, .error (.relayError m)⟩
    | .ok sig =>
      let c2 := if sig == DRY_RUN_SIGNATURE then c1
                else { c1 with mintCache := some freshMint }
      ⟨c2, [tx], t.relayPosts, .ok freshMint⟩
  match c1.mintCache with
  | some mint =>
    if l.accountExists mint then ⟨c1, [], 0, .ok mint⟩ else fresh
  | none => fresh

/-- Shallow embedding of `mintInitialSupply`.  Requires the `mint.json`
checkpoint; computes the treasury associated token account; when that account
exists and its balance already equals `TARGET_SUPPLY` it returns without
submitting; otherwise it submits a single transaction that prepends the
associated-account creation exactly when the account does not yet exist,
followed by the mint-to instruction for the full target supply. -/
def mintInitialSupply (dry : Bool) (freshKey : Pubkey) (e : EnvVars) (c : Cache) (l : Ledger)
    (outs : Nat → AttemptOutcome) : StepRun Unit :=
  let p := loadOrCreateUserAuth freshKey c
  let userAuth := p.1
  let c1 := p.2
  match c1.mintCache with
  | none => ⟨c1, [], 0, .error .mintNotCreated⟩
  | some mint =>
    let treasury := e.treasuryPubkey.getD ""
    let treasuryAta := findAssociatedTokenAddress treasury mint
    let ataInfo := l.accountExists treasuryAta
    if ataInfo && (l.tokenBalance treasuryAta == TARGET_SUPPLY) then
      ⟨c1, [], 0, .ok ()⟩
    else
      let tx := (if ataInfo then [] else [Ix.createAtaIx treasury mint]) ++
        [Ix.mintToIx mint treasuryAta userAuth TARGET_SUPPLY]
      let t := sendViaRelayer dry outs
      match t.result with
      | .error m => ⟨c1, [tx], t.relayPosts, .error (.relayError m)⟩
      | .ok _ => ⟨c1, [tx], t.relayPosts, .ok ()⟩

/-- Shallow embedding of `setTokenMetadata`.  Requires the `mint.json`
checkpoint; branches on whether the metadata PDA account already exists on the
live ledger (update vs create), then submits one transaction. -/
def setTokenMetadata (dry : Bool) (freshKey : Pubkey) (c : Cache) (l : Ledger)
    (outs : Nat → AttemptOutcome) : StepRun Unit :=
  let p := loadOrCreateUserAuth freshKey c
  let c1 := p.2
  match c1.mintCache with
  | none => ⟨c1, [], 0, .error .mintNotCreated⟩
  | some mint =>
    let pda := findMetadataPda mint
    let tx := if l.accountExists pda then [Ix.updateMetadataIx pda]
              else [Ix.createMetadataIx pda mint]
    let t := sendViaRelayer dry outs
    match t.result with
    | .error m => ⟨c1, [tx], t.relayPosts, .error (.relayError m)⟩
    | .ok _ => ⟨c1, [tx], t.relayPosts, .ok ()⟩

/-- The target-authority expression of `lockAuthorities`:
`authorityMode === 'dao' and daoPubkey ? daoPubkey :
 authorityMode === 'treasury' ? treasuryPubkey : null`. -/
def resolveTargetAuthority (authorityMode : String) (daoPubkey : Option Pubkey)
    (treasuryPubkey : Pubkey) : Option Pubkey :=
  if authorityMode == "dao" && daoPubkey.isSome then daoPubkey
  else if authorityMode == "treasury" then some treasuryPubkey
  else none

/-- The target authority `lockAuthorities` computes from the environment,
with the source's defaults (`AUTHORITY_MODE or 'null'`, `DAO_PUBKEY` only
when set). -/
def lockTargetAuthority (e : EnvVars) : Option Pubkey :=
  resolveTargetAuthority (e.authorityMode.getD "null") e.daoPubkey (e.treasuryPubkey.getD "")

/-- The per-slot submission guard of `lockAuthorities`:
`currentAuthority and (!targetAuthority or !currentAuthority.equals(targetAuthority))`. -/
def needsAuthorityChange (current target : Option Pubkey) : Bool :=
  current.isSome && (!target.isSome || current != target)

/-- The transactions `lockAuthorities` builds: one `setAuthority` transaction
per authority slot that passes the guard, iterating
`['MintTokens', 'FreezeAccount']` in order. -/
def lockTxs (target : Option Pubkey) (userAuth mint : Pubkey) (l : Ledger) : List (List Ix) :=
  (if needsAuthorityChange l.mintAuthority target then
    [[Ix.setAuthorityIx mint userAuth "MintTokens" target]] else []) ++
  (if needsAuthorityChange l.freezeAuthority target then
    [[Ix.setAuthorityIx mint userAuth "FreezeAccount" target]] else [])

/-- Sequential submission of a list of transactions, one `sendViaRelayer`
call each (`for (const tx of txs)` in `lockAuthorities`); a throw aborts the
remaining submissions.  Returns the transactions actually dispatched, the
total number of relayer POSTs, and the outcome.  `i` indexes the submissions
into the per-call outcome streams `outs`. -/
def submitAll (dry : Bool) (outs : Nat → Nat → AttemptOutcome) (i : Nat) :
    List (List Ix) → List (List Ix) × Nat × Except StepError Unit
  | [] => ([], 0, .ok ())
  | tx :: rest =>
    let t := sendViaRelayer dry (outs i)
    match t.result with
    | .error m => ([tx], t.relayPosts, .error (.relayError m))
    | .ok _ =>
      let r := submitAll dry outs (i + 1) rest
      (tx :: r.1, t.relayPosts + r.2.1, r.2.2)

/-- Shallow embedding of `lockAuthorities`.  It loads the identity, requires
the `mint.json` checkpoint and that the cached mint resolves on the live
ledger, resolves the target authority from the environment, compares each
authority slot's current on-chain value against the target, and submits one
transaction per slot that passes the guard.  It performs no check of the
minted supply. -/
def lockAuthorities (dry : Bool) (freshKey : Pubkey) (e : EnvVars) (c : Cache) (l : Ledger)
    (outs : Nat → Nat → AttemptOutcome) : StepRun Unit :=
  let p := loadOrCreateUserAuth freshKey c
  let userAuth := p.1
  let c1 := p.2
  match c1.mintCache with
  | none => ⟨c1, [], 0, .error .mintNotCreated⟩
  | some mint =>
    if l.accountExists mint then
      let target := lockTargetAuthority e
      let txs := lockTxs target userAuth mint l
      let r := submitAll dry outs 0 txs
      ⟨c1, r.1, r.2.1, r.2.2⟩
    else ⟨c1, [], 0, .error .mintNotFound⟩

/-- Shallow embedding of `rollback`: deletes the `mint.json` checkpoint when
present and then deletes the `user_auth.json` identity file when present; it
reads (but never writes) ledger state and submits nothing. -/
def rollback (c : Cache) : StepRun Unit :=
  ⟨{ c with mintCache := none, userAuth := none }, [], 0, .ok ()⟩

/-- Shallow embedding of `checkEnv`.  `validPubkey` stands for the base58
`PublicKey` constructor succeeding; `rpcReachable` for `getLatestBlockhash`
succeeding against the configured RPC.  The four required variables must be
present, the relayer and treasury keys must parse, the treasury must equal
`OWNER_ADDRESS`, `DAO_PUBKEY` must parse only when it is set, and
`AUTHORITY_MODE or ''` must be one of null, dao, treasury. -/
def checkEnv (validPubkey : String → Bool) (rpcReachable : Bool) (e : EnvVars) : Bool :=
  match e.rpcUrl, e.relayerUrl, e.relayerPubkey, e.treasuryPubkey with
  | some _, some _, some relayer, some treasury =>
    validPubkey relayer && validPubkey treasury && (treasury == OWNER_ADDRESS) &&
    (match e.daoPubkey with
     | some d => validPubkey d
     | none => true) &&
    ["null", "dao", "treasury"].contains (e.authorityMode.getD "") &&
    rpcReachable
  | _, _, _, _ => false

/-- External inputs one menu action may consume: the live ledger snapshot it
reads, the fresh key material it may generate, and the per-submission relayer
outcome streams of the four steps. -/
structure ActionInput where
  ledger : Ledger
  freshKey : Pubkey
  freshMint : Pubkey
  outsCreate : Nat → AttemptOutcome
  outsMint : Nat → AttemptOutcome
  outsMeta : Nat → AttemptOutcome
  outsLock : Nat → Nat → AttemptOutcome

/-- Shallow embedding of `runAllSteps`: create, mint, metadata, lock in
sequence, each reading the cache left by its predecessor; a throw aborts the
remaining steps. -/
def runAllSteps (dry : Bool) (e : EnvVars) (inp : ActionInput) (c : Cache) : StepRun Unit :=
  let r1 := createTokenMint dry inp.freshKey inp.freshMint c inp.ledger inp.outsCreate
  match r1.outcome with
  | .error err => ⟨r1.cacheAfter, r1.submissions, r1.relayPosts, .error err⟩
  | .ok _ =>
    let r2 := mintInitialSupply dry inp.freshKey e r1.cacheAfter inp.ledger inp.outsMint
    match r2.outcome with
    | .error err =>
      ⟨r2.cacheAfter, r1.submissions ++ r2.submissions, r1.relayPosts + r2.relayPosts, .error err⟩
    | .ok _ =>
      let r3 := setTokenMetadata dry inp.freshKey r2.cacheAfter inp.ledger inp.outsMeta
      match r3.outcome with
      | .error err =>
        ⟨r3.cacheAfter, r1.submissions ++ r2.submissions ++ r3.submissions,
         r1.relayPosts + r2.relayPosts + r3.relayPosts, .error err⟩
      | .ok _ =>
        let r4 := lockAuthorities dry inp.freshKey e r3.cacheAfter inp.ledger inp.outsLock
        ⟨r4.cacheAfter, r1.submissions ++ r2.submissions ++ r3.submissions ++ r4.submissions,
         r1.relayPosts + r2.relayPosts + r3.relayPosts + r4.relayPosts, r4.outcome⟩

/-- One iteration of the interactive menu (`switch (choice)` in
`grokCopilot`): returns the environment and cache after the action together
with the number of real relayer POSTs the action performed.  Choice 7 mutates
the global environment (`process.env.DRY_RUN = 'true'`) before running all
steps; choice 6 (status) only reads; choice 8 is rollback; any unrecognized
choice does nothing.  Choice 9 (exit) is handled by the session loop. -/
def dispatch (inp : ActionInput) (e : EnvVars) (c : Cache) (choice : String) :
    EnvVars × Cache × Nat :=
  if choice == "1" then
    let r := runAllSteps (dryRunEnabled e) e inp c
    (e, r.cacheAfter, r.relayPosts)
  else if choice == "2" then
    let r := createTokenMint (dryRunEnabled e) inp.freshKey inp.freshMint c inp.ledger inp.outsCreate
    (e, r.cacheAfter, r.relayPosts)
  else if choice == "3" then
    let r := mintInitialSupply (dryRunEnabled e) inp.freshKey e c inp.ledger inp.outsMint
    (e, r.cacheAfter, r.relayPosts)
  else if choice == "4" then
    let r := setTokenMetadata (dryRunEnabled e) inp.freshKey c inp.ledger inp.outsMeta
    (e, r.cacheAfter, r.relayPosts)
  else if choice == "5" then
    let r := lockAuthorities (dryRunEnabled e) inp.freshKey e c inp.ledger inp.outsLock
    (e, r.cacheAfter, r.relayPosts)
  else if choice == "6" then
    (e, c, 0)
  else if choice == "7" then
    let e2 := { e with dryRun := some "true" }
    let r := runAllSteps (dryRunEnabled e2) e2 inp c
    (e2, r.cacheAfter, r.relayPosts)
  else if choice == "8" then
    (e, (rollback c).cacheAfter, 0)
  else
    (e, c, 0)

/-- The interactive `while (true)` loop of `grokCopilot` over a list of menu
choices, threading the mutable environment and the cache and summing the real
relayer POSTs performed; choice 9 exits the session.  `inputs i` supplies the
external inputs of the i-th action. -/
def runSession (inputs : Nat → ActionInput) (i : Nat) (e : EnvVars) (c : Cache) :
    List String → EnvVars × Cache × Nat
  | [] => (e, c, 0)
  | ch :: rest =>
    if ch == "9" then (e, c, 0)
    else
      let s := dispatch (inputs i) e c ch
      let r := runSession inputs (i + 1) s.1 s.2.1 rest
      (r.1, r.2.1, s.2.2 + r.2.2)

/-! Helper lemmas about the relay loop. -/

lemma relayAttempt_anchorFetches (outs : Nat → AttemptOutcome) :
    ∀ fuel attempt, (relayAttempt outs fuel attempt).anchorFetches = 0 := by
  intro fuel
  induction fuel with
  | zero => intro attempt; rfl
  | succ n ih =>
    intro attempt
    cases ho : outs attempt
    case accepted s => simp [relayAttempt, ho]
    all_goals
      simp only [relayAttempt, ho]
      split <;> rfl

lemma relayAttempt_posts_le (outs : Nat → AttemptOutcome) :
    ∀ fuel attempt, (relayAttempt outs fuel attempt).relayPosts ≤ fuel := by
  intro fuel
  induction fuel with
  | zero => intro attempt; simp [relayAttempt]
  | succ n ih =>
    intro attempt
    cases ho : outs attempt
    case accepted s => simp [relayAttempt, ho]
    all_goals
      simp only [relayAttempt, ho]
      split
      · simp
      · have := ih (attempt + 1)
        simp only []
        omega

lemma relayAttempt_posts_pos (outs : Nat → AttemptOutcome) (fuel attempt : Nat) :
    1 ≤ (relayAttempt outs (fuel + 1) attempt).relayPosts := by
  cases ho : outs attempt
  case accepted s => simp [relayAttempt, ho]
  all_goals
    simp only [relayAttempt, ho]
    split
    · simp
    · simp only []
      omega

lemma relayAttempt_fail_step (outs : Nat → AttemptOutcome) (fuel attempt : Nat)
    (h : isAccepted (outs attempt) = false) (h3 : (attempt == 3) = false) :
    relayAttempt outs (fuel + 1) attempt =
      ⟨(relayAttempt outs fuel (attempt + 1)).result, 0,
       (relayAttempt outs fuel (attempt + 1)).relayPosts + 1,
       (relayAttempt outs fuel (attempt + 1)).confirmWaits + attemptConfirms (outs attempt),
       1000 :: (relayAttempt outs fuel (attempt + 1)).sleepsMs⟩ := by
  cases ho : outs attempt
  case accepted s => rw [ho] at h; simp [isAccepted] at h
  all_goals simp [relayAttempt, ho, h3, attemptConfirms]

lemma relayAttempt_fail_last (outs : Nat → AttemptOutcome) (fuel : Nat)
    (h : isAccepted (outs 3) = false) :
    relayAttempt outs (fuel + 1) 3 =
      ⟨.error ("Relayer failed after 3 attempts: " ++ failureMsg 3 (outs 3)), 0, 1,
       attemptConfirms (outs 3), []⟩ := by
  cases ho : outs 3
  case accepted s => rw [ho] at h; simp [isAccepted] at h
  all_goals simp [relayAttempt, ho, failureMsg, attemptConfirms]

/-- A relayer response stream that deterministically rejects every attempt
with the same on-chain rejection, as a deterministic `LedgerRejected`-style
failure would. -/
def deterministicRejection : Nat → AttemptOutcome :=
  fun _ => .relayRejected (some "Ledger rejected: insufficient account authorization")

/-- C1 counterexample: on a response stream that is the same deterministic
on-chain rejection at every attempt, `sendViaRelayer` still performs 3
relayer POSTs (2 retries, not the claimed 0) with 1-second sleeps between
them before raising the terminal error. -/
theorem c1_counterexample :
    (sendViaRelayer false deterministicRejection).relayPosts = 3 ∧
    (sendViaRelayer false deterministicRejection).sleepsMs = [1000, 1000] ∧
    (sendViaRelayer false deterministicRejection).result =
      Except.error
        "Relayer failed after 3 attempts: Ledger rejected: insufficient account authorization" :=
  ⟨rfl, rfl, rfl⟩

/-- C1 (amended): the Relay Submitter makes up to 3 attempts; when all three
attempts fail — for any mix of transport failures, relayer rejections and
confirmation failures, including deterministic on-chain rejections — it
performs exactly 3 POSTs with a fixed 1000 ms delay between consecutive
attempts and raises a terminal failure carrying the last underlying error;
the retry policy is uniform over failure kinds, so a deterministic rejection
is retried like any other failure rather than being given 0 retries. -/
theorem c1_relay_retry_uniform (outs : Nat → AttemptOutcome)
    (h1 : isAccepted (outs 1) = false) (h2 : isAccepted (outs 2) = false)
    (h3 : isAccepted (outs 3) = false) :
    (sendViaRelayer false outs).relayPosts = 3 ∧
    (sendViaRelayer false outs).sleepsMs = [1000, 1000] ∧
    (sendViaRelayer false outs).result =
      Except.error ("Relayer failed after 3 attempts: " ++ failureMsg 3 (outs 3)) ∧
    (∀ other : Nat → AttemptOutcome, (sendViaRelayer false other).relayPosts ≤ 3) := by
  have e1 := relayAttempt_fail_step outs 2 1 h1 (by decide)
  have e2 := relayAttempt_fail_step outs 1 2 h2 (by decide)
  have e3 := relayAttempt_fail_last outs 0 h3
  refine ⟨?_, ?_, ?_, ?_⟩
  · simp [sendViaRelayer, e1, e2, e3]
  · simp [sendViaRelayer, e1, e2, e3]
  · simp [sendViaRelayer, e1, e2, e3]
  · intro other
    have := relayAttempt_posts_le other 3 1
    simpa [sendViaRelayer] using this

/-- Witness for `c1_relay_retry_uniform` at the concrete all-rejection
stream. -/
theorem c1_relay_retry_uniform_witness :
    (sendViaRelayer false deterministicRejection).relayPosts = 3 ∧
    (sendViaRelayer false deterministicRejection).sleepsMs = [1000, 1000] ∧
    (sendViaRelayer false deterministicRejection).result =
      Except.error
        ("Relayer failed after 3 attempts: " ++ failureMsg 3 (deterministicRejection 3)) ∧
    (∀ other : Nat → AttemptOutcome, (sendViaRelayer false other).relayPosts ≤ 3) :=
  c1_relay_retry_uniform deterministicRejection rfl rfl rfl

/-- A stream where the relay accepts the first attempt but the confirmation
wait fails (validity window expired), and the second attempt settles. -/
def confirmExpiryThenAccepted : Nat → AttemptOutcome :=
  fun n => if n == 1 then .confirmFailed "sig1" "block height exceeded" else .accepted "sig2"

/-- C6 counterexample: after the relay accepted the first submission (the
confirmation wait ran, `confirmWaits` counts it), the failed confirmation is
not terminal: the same `sendViaRelayer` call sleeps once, POSTs a second
time, and returns the second signature — the confirmation failure was retried
within the call. -/
theorem c6_counterexample :
    (sendViaRelayer false confirmExpiryThenAccepted).relayPosts = 2 ∧
    (sendViaRelayer false confirmExpiryThenAccepted).confirmWaits = 2 ∧
    (sendViaRelayer false confirmExpiryThenAccepted).sleepsMs = [1000] ∧
    (sendViaRelayer false confirmExpiryThenAccepted).result = Except.ok "sig2" :=
  ⟨rfl, rfl, rfl, rfl⟩

/-- C6 (amended): a failure of the ledger confirmation wait after relay
acceptance is caught by the submitter's own retry loop and re-dispatched
within the same call (at least a second POST occurs, up to the 3-attempt
cap); the recency anchor is resolved exactly once per call, so the
re-dispatch reuses the original anchor rather than resolving a new one. -/
theorem c6_confirm_failure_retried (outs : Nat → AttemptOutcome) (sig m : String)
    (h : outs 1 = .confirmFailed sig m) :
    (sendViaRelayer false outs).anchorFetches = 1 ∧
    2 ≤ (sendViaRelayer false outs).relayPosts := by
  have hacc : isAccepted (outs 1) = false := by rw [h]; rfl
  have e1 := relayAttempt_fail_step outs 2 1 hacc (by decide)
  constructor
  · simp [sendViaRelayer, relayAttempt_anchorFetches]
  · have hpos : 1 ≤ (relayAttempt outs 2 2).relayPosts := relayAttempt_posts_pos outs 1 2
    simp only [sendViaRelayer, if_neg (by simp : ¬(false = true))]
    simp [e1]
    omega

/-- Witness for `c6_confirm_failure_retried` at the concrete
confirmation-expiry stream. -/
theorem c6_confirm_failure_retried_witness :
    (sendViaRelayer false confirmExpiryThenAccepted).anchorFetches = 1 ∧
    2 ≤ (sendViaRelayer false confirmExpiryThenAccepted).relayPosts :=
  c6_confirm_failure_retried confirmExpiryThenAccepted "sig1" "block height exceeded" rfl

/-! Helper lemmas about the cache and dry-run behavior of the executors. -/

lemma loadOrCreateUserAuth_mintCache (fk : Pubkey) (c : Cache) :
    ((loadOrCreateUserAuth fk c).2).mintCache = c.mintCache := by
  rcases c with ⟨mc, ua⟩
  cases ua <;> rfl

lemma sendViaRelayer_dry (outs : Nat → AttemptOutcome) :
    sendViaRelayer true outs = ⟨.ok DRY_RUN_SIGNATURE, 1, 0, 0, []⟩ := rfl

lemma createTokenMint_dry (fk fm : Pubkey) (c : Cache) (l : Ledger)
    (outs : Nat → AttemptOutcome) :
    (createTokenMint true fk fm c l outs).cacheAfter.mintCache = c.mintCache ∧
    (createTokenMint true fk fm c l outs).relayPosts = 0 := by
  rcases c with ⟨mc, ua⟩
  cases ua <;> cases mc <;>
    simp [createTokenMint, loadOrCreateUserAuth, sendViaRelayer, DRY_RUN_SIGNATURE] <;>
    split <;> simp

lemma mintInitialSupply_dry (fk : Pubkey) (e : EnvVars) (c : Cache) (l : Ledger)
    (outs : Nat → AttemptOutcome) :
    (mintInitialSupply true fk e c l outs).cacheAfter.mintCache = c.mintCache ∧
    (mintInitialSupply true fk e c l outs).relayPosts = 0 := by
  rcases c with ⟨mc, ua⟩
  cases ua <;> cases mc <;>
    simp [mintInitialSupply, loadOrCreateUserAuth, sendViaRelayer] <;>
    split <;> simp

lemma setTokenMetadata_dry (fk : Pubkey) (c : Cache) (l : Ledger)
    (outs : Nat → AttemptOutcome) :
    (setTokenMetadata true fk c l outs).cacheAfter.mintCache = c.mintCache ∧
    (setTokenMetadata true fk c l outs).relayPosts = 0 := by
  rcases c with ⟨mc, ua⟩
  cases ua <;> cases mc <;>
    simp [setTokenMetadata, loadOrCreateUserAuth, sendViaRelayer]

lemma submitAll_dry_posts (outs : Nat → Nat → AttemptOutcome) :
    ∀ txs i, (submitAll true outs i txs).2.1 = 0 := by
  intro txs
  induction txs with
  | nil => intro i; rfl
  | cons tx rest ih =>
    intro i
    simp [submitAll, sendViaRelayer, ih]

lemma lockAuthorities_dry (fk : Pubkey) (e : EnvVars) (c : Cache) (l : Ledger)
    (outs : Nat → Nat → AttemptOutcome) :
    (lockAuthorities true fk e c l outs).cacheAfter.mintCache = c.mintCache ∧
    (lockAuthorities true fk e c l outs).relayPosts = 0 := by
  rcases c with ⟨mc, ua⟩
  cases ua <;> cases mc <;>
    simp [lockAuthorities, loadOrCreateUserAuth] <;>
    split <;> simp [submitAll_dry_posts]

lemma runAllSteps_dry (e : EnvVars) (inp : ActionInput) (c : Cache) :
    (runAllSteps true e inp c).cacheAfter.mintCache = c.mintCache ∧
    (runAllSteps true e inp c).relayPosts = 0 := by
  unfold runAllSteps
  have h1 := createTokenMint_dry inp.freshKey inp.freshMint c inp.ledger inp.outsCreate
  cases o1 : (createTokenMint true inp.freshKey inp.freshMint c inp.ledger inp.outsCreate).outcome with
  | error err => simp only [o1]; exact h1
  | ok v =>
    simp only [o1]
    have h2 := mintInitialSupply_dry inp.freshKey e
      (createTokenMint true inp.freshKey inp.freshMint c inp.ledger inp.outsCreate).cacheAfter
      inp.ledger inp.outsMint
    cases o2 : (mintInitialSupply true inp.freshKey e
        (createTokenMint true inp.freshKey inp.freshMint c inp.ledger inp.outsCreate).cacheAfter
        inp.ledger inp.outsMint).outcome with
    | error err =>
      simp only [o2]
      exact ⟨h2.1.trans h1.1, by rw [h1.2, h2.2]⟩
    | ok v2 =>
      simp only [o2]
      have h3 := setTokenMetadata_dry inp.freshKey
        (mintInitialSupply true inp.freshKey e
          (createTokenMint true inp.freshKey inp.freshMint c inp.ledger inp.outsCreate).cacheAfter
          inp.ledger inp.outsMint).cacheAfter inp.ledger inp.outsMeta
      cases o3 : (setTokenMetadata true inp.freshKey
          (mintInitialSupply true inp.freshKey e
            (createTokenMint true inp.freshKey inp.freshMint c inp.ledger inp.outsCreate).cacheAfter
            inp.ledger inp.outsMint).cacheAfter inp.ledger inp.outsMeta).outcome with
      | error err =>
        simp only [o3]
        exact ⟨(h3.1.trans h2.1).trans h1.1, by rw [h1.2, h2.2, h3.2]⟩
      | ok v3 =>
        simp only [o3]
        have h4 := lockAuthorities_dry inp.freshKey e
          (setTokenMetadata true inp.freshKey
            (mintInitialSupply true inp.freshKey e
              (createTokenMint true inp.freshKey inp.freshMint c inp.ledger
                inp.outsCreate).cacheAfter
              inp.ledger inp.outsMint).cacheAfter inp.ledger inp.outsMeta).cacheAfter
          inp.ledger inp.outsLock
        exact ⟨((h4.1.trans h3.1).trans h2.1).trans h1.1, by rw [h1.2, h2.2, h3.2, h4.2]⟩

/-- C3: with dry-run enabled, the submitter short-circuits after
serialization with the sentinel signature — zero relayer POSTs, zero
confirmation waits (the one `anchorFetches` is the blockhash read that
precedes serialization) — and every step executor leaves the checkpoint
(`mint.json`) exactly as it was and performs zero real relayer POSTs. -/
theorem c3_dry_run_no_relay_no_checkpoint_write :
    (∀ outs : Nat → AttemptOutcome,
      sendViaRelayer true outs = ⟨.ok DRY_RUN_SIGNATURE, 1, 0, 0, []⟩) ∧
    (∀ (fk fm : Pubkey) (c : Cache) (l : Ledger) (outs : Nat → AttemptOutcome),
      (createTokenMint true fk fm c l outs).cacheAfter.mintCache = c.mintCache ∧
      (createTokenMint true fk fm c l outs).relayPosts = 0) ∧
    (∀ (fk : Pubkey) (e : EnvVars) (c : Cache) (l : Ledger) (outs : Nat → AttemptOutcome),
      (mintInitialSupply true fk e c l outs).cacheAfter.mintCache = c.mintCache ∧
      (mintInitialSupply true fk e c l outs).relayPosts = 0) ∧
    (∀ (fk : Pubkey) (c : Cache) (l : Ledger) (outs : Nat → AttemptOutcome),
      (setTokenMetadata true fk c l outs).cacheAfter.mintCache = c.mintCache ∧
      (setTokenMetadata true fk c l outs).relayPosts = 0) ∧
    (∀ (fk : Pubkey) (e : EnvVars) (c : Cache) (l : Ledger) (outs : Nat → Nat → AttemptOutcome),
      (lockAuthorities true fk e c l outs).cacheAfter.mintCache = c.mintCache ∧
      (lockAuthorities true fk e c l outs).relayPosts = 0) :=
  ⟨sendViaRelayer_dry, createTokenMint_dry, mintInitialSupply_dry, setTokenMetadata_dry,
   lockAuthorities_dry⟩

/-- A relayer that settles every submission at signature "SIG". -/
def acceptedStream : Nat → AttemptOutcome := fun _ => .accepted "SIG"

/-- A ledger on which the asset "ASSET" already exists (and nothing else). -/
def recoveryLedger : Ledger := ⟨fun a => a == "ASSET", fun _ => 0, none, none⟩

/-- C4 counterexample: with the checkpoint record absent while the live
ledger already shows the created asset "ASSET", `createTokenMint` does not
detect the step as already complete: it submits a brand-new creation for the
fresh mint "FRESH" and persists "FRESH" — not the recovered address — into
the checkpoint. -/
theorem c4_counterexample :
    recoveryLedger.accountExists "ASSET" = true ∧
    (createTokenMint false "U" "FRESH" ⟨none, some "U"⟩ recoveryLedger
      acceptedStream).submissions = [[Ix.createMintIx "FRESH" "U" "U" 9]] ∧
    (createTokenMint false "U" "FRESH" ⟨none, some "U"⟩ recoveryLedger
      acceptedStream).cacheAfter.mintCache = some "FRESH" ∧
    ¬ (createTokenMint false "U" "FRESH" ⟨none, some "U"⟩ recoveryLedger
      acceptedStream).cacheAfter.mintCache = some "ASSET" :=
  ⟨rfl, rfl, rfl, by decide⟩

/-- C4 (amended): Create-Asset reconciles against the live ledger only
through the checkpoint: when the checkpoint holds an address that still
resolves on the ledger, it returns that address with no submission and
leaves the checkpoint unchanged; when the checkpoint record is absent, it
does not consult the ledger for a pre-existing asset and always submits one
fresh creation. -/
theorem c4_create_reconciles_only_with_checkpoint
    (dry : Bool) (fk fm : Pubkey) (c : Cache) (l : Ledger) (outs : Nat → AttemptOutcome)
    (mint : Pubkey) (hc : c.mintCache = some mint) (hl : l.accountExists mint = true) :
    (createTokenMint dry fk fm c l outs).submissions = [] ∧
    (createTokenMint dry fk fm c l outs).relayPosts = 0 ∧
    (createTokenMint dry fk fm c l outs).outcome = .ok mint ∧
    (createTokenMint dry fk fm c l outs).cacheAfter.mintCache = some mint ∧
    (∀ c2 : Cache, c2.mintCache = none →
      ((createTokenMint dry fk fm c2 l outs).submissions).length = 1) := by
  rcases c with ⟨mc, ua⟩
  simp only [Cache.mintCache] at hc
  subst hc
  refine ⟨?_, ?_, ?_, ?_, ?_⟩
  · cases ua <;> simp [createTokenMint, loadOrCreateUserAuth, hl]
  · cases ua <;> simp [createTokenMint, loadOrCreateUserAuth, hl]
  · cases ua <;> simp [createTokenMint, loadOrCreateUserAuth, hl]
  · cases ua <;> simp [createTokenMint, loadOrCreateUserAuth, hl]
  · intro c2 h2
    rcases c2 with ⟨mc2, ua2⟩
    simp only [Cache.mintCache] at h2
    subst h2
    cases ua2 <;>
      simp only [createTokenMint, loadOrCreateUserAuth] <;>
      cases hr : (sendViaRelayer dry outs).result <;> simp [hr]

/-- Witness for `c4_create_reconciles_only_with_checkpoint`: with the
checkpoint holding "ASSET" and the ledger showing it, no submission is
made. -/
theorem c4_create_reconciles_witness :
    ((createTokenMint false "U" "FRESH" ⟨some "ASSET", some "U"⟩ recoveryLedger
      acceptedStream).submissions = [] ∧
    (createTokenMint false "U" "FRESH" ⟨some "ASSET", some "U"⟩ recoveryLedger
      acceptedStream).relayPosts = 0 ∧
    (createTokenMint false "U" "FRESH" ⟨some "ASSET", some "U"⟩ recoveryLedger
      acceptedStream).outcome = .ok "ASSET" ∧
    (createTokenMint false "U" "FRESH" ⟨some "ASSET", some "U"⟩ recoveryLedger
      acceptedStream).cacheAfter.mintCache = some "ASSET" ∧
    (∀ c2 : Cache, c2.mintCache = none →
      ((createTokenMint false "U" "FRESH" c2 recoveryLedger
        acceptedStream).submissions).length = 1)) ∧
    ((createTokenMint false "U" "FRESH" ⟨none, some "U"⟩ recoveryLedger
      acceptedStream).submissions).length = 1 :=
  ⟨c4_create_reconciles_only_with_checkpoint false "U" "FRESH" ⟨some "ASSET", some "U"⟩
    recoveryLedger acceptedStream "ASSET" rfl rfl,
   (c4_create_reconciles_only_with_checkpoint false "U" "FRESH" ⟨some "ASSET", some "U"⟩
    recoveryLedger acceptedStream "ASSET" rfl rfl).2.2.2.2 ⟨none, some "U"⟩ rfl⟩

/-- C5 counterexample: on a cache holding both the checkpoint and the
identity file, `rollback` does not leave the identity unchanged — it deletes
`user_auth.json` as well. -/
theorem c5_counterexample :
    (rollback ⟨some "MINT", some "IDKEY"⟩).cacheAfter.userAuth = none ∧
    ¬ (rollback ⟨some "MINT", some "IDKEY"⟩).cacheAfter.userAuth = some "IDKEY" :=
  ⟨rfl, by decide⟩

/-- C5 (amended): rollback deletes the deployment checkpoint record and also
deletes the persisted identity file; it submits nothing to the relay, so no
on-chain effect is undone. -/
theorem c5_rollback_deletes_identity_too (c : Cache) :
    (rollback c).cacheAfter.mintCache = none ∧
    (rollback c).cacheAfter.userAuth = none ∧
    (rollback c).submissions = [] ∧
    (rollback c).relayPosts = 0 :=
  ⟨rfl, rfl, rfl, rfl⟩

/-- C7: Mint-Supply targets exactly 10^18 base units (1,000,000,000 tokens
at 9 decimals).  With the mint checkpoint present: when the treasury holding
account exists with balance already equal to the target it completes without
submitting anything (there is no other checkpoint state it could consult);
otherwise it hands the relayer exactly one batched transaction, which
prepends the holding-account creation precisely when that account does not
yet exist and always ends with the full-supply mint instruction. -/
theorem c7_mint_supply_batch (dry : Bool) (fk : Pubkey) (e : EnvVars) (c : Cache)
    (l : Ledger) (outs : Nat → AttemptOutcome) (mint : Pubkey)
    (hc : c.mintCache = some mint) :
    TARGET_SUPPLY = 10 ^ 18 ∧
    (l.accountExists (findAssociatedTokenAddress (e.treasuryPubkey.getD "") mint) = true →
      l.tokenBalance (findAssociatedTokenAddress (e.treasuryPubkey.getD "") mint) = TARGET_SUPPLY →
      (mintInitialSupply dry fk e c l outs).submissions = [] ∧
      (mintInitialSupply dry fk e c l outs).relayPosts = 0 ∧
      (mintInitialSupply dry fk e c l outs).outcome = .ok ()) ∧
    (l.accountExists (findAssociatedTokenAddress (e.treasuryPubkey.getD "") mint) = true →
      l.tokenBalance (findAssociatedTokenAddress (e.treasuryPubkey.getD "") mint) ≠ TARGET_SUPPLY →
      (mintInitialSupply dry fk e c l outs).submissions =
        [[Ix.mintToIx mint (findAssociatedTokenAddress (e.treasuryPubkey.getD "") mint)
            (loadOrCreateUserAuth fk c).1 TARGET_SUPPLY]]) ∧
    (l.accountExists (findAssociatedTokenAddress (e.treasuryPubkey.getD "") mint) = false →
      (mintInitialSupply dry fk e c l outs).submissions =
        [[Ix.createAtaIx (e.treasuryPubkey.getD "") mint,
          Ix.mintToIx mint (findAssociatedTokenAddress (e.treasuryPubkey.getD "") mint)
            (loadOrCreateUserAuth fk c).1 TARGET_SUPPLY]]) := by
  rcases c with ⟨mc, ua⟩
  simp only [Cache.mintCache] at hc
  subst hc
  refine ⟨by norm_num [TARGET_SUPPLY], ?_, ?_, ?_⟩
  · intro hx hb
    cases ua <;> simp [mintInitialSupply, loadOrCreateUserAuth, hx, hb]
  · intro hx hb
    cases ua <;>
      simp only [mintInitialSupply, loadOrCreateUserAuth, hx] <;>
      simp [show (l.tokenBalance (findAssociatedTokenAddress (e.treasuryPubkey.getD "") mint)
          == TARGET_SUPPLY) = false from by simpa using hb] <;>
      cases hr : (sendViaRelayer dry outs).result <;> simp [hr]
  · intro hx
    cases ua <;>
      simp only [mintInitialSupply, loadOrCreateUserAuth, hx] <;>
      simp <;>
      cases hr : (sendViaRelayer dry outs).result <;> simp [hr]

/-- An environment with the treasury configured to the owner address and the
authority mode left at null. -/
def baseEnv : EnvVars :=
  ⟨some "rpc", some "relay", some "RELAYKEY", some OWNER_ADDRESS, none, some "null", none, none⟩

/-- A ledger on which the treasury holding account for mint "MINT" exists and
already carries the full target supply. -/
def fundedLedger : Ledger :=
  ⟨fun a => a == findAssociatedTokenAddress OWNER_ADDRESS "MINT",
   fun _ => TARGET_SUPPLY, some "U", some "U"⟩

/-- Witness for `c7_mint_supply_batch`: with the balance already at target,
the step submits nothing. -/
theorem c7_mint_supply_batch_witness :
    (mintInitialSupply false "U" baseEnv ⟨some "MINT", some "U"⟩ fundedLedger
      acceptedStream).submissions = [] ∧
    (mintInitialSupply false "U" baseEnv ⟨some "MINT", some "U"⟩ fundedLedger
      acceptedStream).relayPosts = 0 ∧
    (mintInitialSupply false "U" baseEnv ⟨some "MINT", some "U"⟩ fundedLedger
      acceptedStream).outcome = .ok () :=
  (c7_mint_supply_batch false "U" baseEnv ⟨some "MINT", some "U"⟩ fundedLedger
    acceptedStream "MINT" rfl).2.1 (by decide) rfl

/-- C9: with `AUTHORITY_MODE = dao` but no `DAO_PUBKEY` configured,
environment validation still succeeds (the DAO key is only validated when
present and the mode string is in the allowed list), and the target
authority Lock-Authorities resolves is `none` — the irreversible disable
target — rather than a DAO address or a failure. -/
theorem c9_dao_mode_without_dao_address (ru rl rk : String) (dr api : Option String)
    (vp : String → Bool) (h1 : vp rk = true) (h2 : vp OWNER_ADDRESS = true) :
    checkEnv vp true ⟨some ru, some rl, some rk, some OWNER_ADDRESS, none, some "dao", dr, api⟩
      = true ∧
    lockTargetAuthority ⟨some ru, some rl, some rk, some OWNER_ADDRESS, none, some "dao", dr, api⟩
      = none := by
  constructor
  · simp [checkEnv, h1, h2]
  · rfl

/-- Witness for `c9_dao_mode_without_dao_address` with a concrete validator
that accepts every key. -/
theorem c9_dao_mode_witness :
    checkEnv (fun _ => true) true
      ⟨some "rpc", some "relay", some "RK", some OWNER_ADDRESS, none, some "dao", none, none⟩
      = true ∧
    lockTargetAuthority
      ⟨some "rpc", some "relay", some "RK", some OWNER_ADDRESS, none, some "dao", none, none⟩
      = none :=
  c9_dao_mode_without_dao_address "rpc" "relay" "RK" none none (fun _ => true) rfl rfl

/-- A ledger where the mint "MINT" exists with both authorities still held by
the deployer "U", but no token account holds any balance: Mint-Supply has not
completed by live-state reconciliation. -/
def preSupplyLedger : Ledger := ⟨fun a => a == "MINT", fun _ => 0, some "U", some "U"⟩

/-- C2 counterexample: although the minted supply is zero (Mint-Supply not
complete by any live-state measure), invoking Lock-Authorities does not fail
with a precondition error and does not refrain from submitting: it submits
two authority-change transactions and reports success. -/
theorem c2_counterexample :
    preSupplyLedger.tokenBalance (findAssociatedTokenAddress OWNER_ADDRESS "MINT")
      ≠ TARGET_SUPPLY ∧
    (lockAuthorities false "U" baseEnv ⟨some "MINT", some "U"⟩ preSupplyLedger
      (fun _ _ => .accepted "SIG")).outcome = .ok () ∧
    ((lockAuthorities false "U" baseEnv ⟨some "MINT", some "U"⟩ preSupplyLedger
      (fun _ _ => .accepted "SIG")).submissions).length = 2 :=
  ⟨by decide, rfl, rfl⟩

/-- C2 (amended): Lock-Authorities enforces no Mint-Supply precondition: its
entire behavior is independent of every token balance on the ledger, and the
only fail-fast paths are a missing checkpoint (mint not created) and a cached
mint that no longer resolves on the ledger — in both of which nothing is
submitted. -/
theorem c2_lock_has_no_supply_precondition (dry : Bool) (fk : Pubkey) (e : EnvVars)
    (c : Cache) (acct : Pubkey → Bool) (bal1 bal2 : Pubkey → Nat) (ma fa : Option Pubkey)
    (outs : Nat → Nat → AttemptOutcome) :
    lockAuthorities dry fk e c ⟨acct, bal1, ma, fa⟩ outs =
      lockAuthorities dry fk e c ⟨acct, bal2, ma, fa⟩ outs ∧
    (c.mintCache = none →
      (lockAuthorities dry fk e c ⟨acct, bal1, ma, fa⟩ outs).outcome = .error .mintNotCreated ∧
      (lockAuthorities dry fk e c ⟨acct, bal1, ma, fa⟩ outs).submissions = []) ∧
    (∀ mint, c.mintCache = some mint → acct mint = false →
      (lockAuthorities dry fk e c ⟨acct, bal1, ma, fa⟩ outs).outcome = .error .mintNotFound ∧
      (lockAuthorities dry fk e c ⟨acct, bal1, ma, fa⟩ outs).submissions = []) := by
  refine ⟨?_, ?_, ?_⟩
  · rfl
  · intro hc
    rcases c with ⟨mc, ua⟩
    simp only [Cache.mintCache] at hc
    subst hc
    cases ua <;> simp [lockAuthorities, loadOrCreateUserAuth]
  · intro mint hc hx
    rcases c with ⟨mc, ua⟩
    simp only [Cache.mintCache] at hc
    subst hc
    cases ua <;> simp [lockAuthorities, loadOrCreateUserAuth, hx]

/-- Witness for `c2_lock_has_no_supply_precondition`: with no checkpoint,
lock fails fast with the mint-not-created error and submits nothing. -/
theorem c2_lock_no_precondition_witness :
    (lockAuthorities false "U" baseEnv ⟨none, some "U"⟩
      ⟨fun _ => false, fun _ => 0, none, none⟩ (fun _ _ => .accepted "SIG")).outcome =
        .error .mintNotCreated ∧
    (lockAuthorities false "U" baseEnv ⟨none, some "U"⟩
      ⟨fun _ => false, fun _ => 0, none, none⟩ (fun _ _ => .accepted "SIG")).submissions = [] :=
  (c2_lock_has_no_supply_precondition false "U" baseEnv ⟨none, some "U"⟩
    (fun _ => false) (fun _ => 0) (fun _ => 0) none none (fun _ _ => .accepted "SIG")).2.1 rfl

/-- Whether a transaction contains a `setAuthority` instruction for the given
authority slot. -/
def txSetsSlot (slot : String) (tx : List Ix) : Bool :=
  tx.any fun ix =>
    match ix with
    | .setAuthorityIx _ _ s _ => s == slot
    | _ => false

lemma needsAuthorityChange_self (t : Option Pubkey) : needsAuthorityChange t t = false := by
  cases t <;> simp [needsAuthorityChange]

lemma needsAuthorityChange_none_current (t : Option Pubkey) :
    needsAuthorityChange none t = false := by
  simp [needsAuthorityChange]

lemma submitAll_mem (dry : Bool) (outs : Nat → Nat → AttemptOutcome) :
    ∀ (txs : List (List Ix)) (i : Nat) (tx : List Ix),
      tx ∈ (submitAll dry outs i txs).1 → tx ∈ txs := by
  intro txs
  induction txs with
  | nil => intro i tx h; simp [submitAll] at h
  | cons t rest ih =>
    intro i tx h
    simp only [submitAll] at h
    cases hr : (sendViaRelayer dry (outs i)).result <;> rw [hr] at h
    · simp only [List.mem_singleton] at h
      simp [h]
    · simp only [List.mem_cons] at h
      rcases h with h | h
      · simp [h]
      · exact List.mem_cons_of_mem t (ih (i + 1) tx h)

lemma lockTxs_no_mint_slot (target : Option Pubkey) (ua mint : Pubkey) (l : Ledger)
    (h : l.mintAuthority = target) :
    ∀ tx ∈ lockTxs target ua mint l, txSetsSlot "MintTokens" tx = false := by
  intro tx htx
  simp only [lockTxs, h, needsAuthorityChange_self, if_false, Bool.false_eq_true,
    List.nil_append] at htx
  by_cases hf : needsAuthorityChange l.freezeAuthority target = true
  · rw [if_pos hf] at htx
    simp only [List.mem_singleton] at htx
    subst htx
    simp [txSetsSlot]
  · rw [if_neg hf] at htx
    simp at htx

lemma lockTxs_no_freeze_slot (target : Option Pubkey) (ua mint : Pubkey) (l : Ledger)
    (h : l.freezeAuthority = target) :
    ∀ tx ∈ lockTxs target ua mint l, txSetsSlot "FreezeAccount" tx = false := by
  intro tx htx
  simp only [lockTxs, h, needsAuthorityChange_self, if_false, Bool.false_eq_true,
    List.append_nil] at htx
  by_cases hm : needsAuthorityChange l.mintAuthority target = true
  · rw [if_pos hm] at htx
    simp only [List.mem_singleton] at htx
    subst htx
    simp [txSetsSlot]
  · rw [if_neg hm] at htx
    simp at htx

lemma lockAuthorities_submissions_from_lockTxs (dry : Bool) (fk : Pubkey) (e : EnvVars)
    (c : Cache) (l : Ledger) (outs : Nat → Nat → AttemptOutcome) (P : List Ix → Prop)
    (h : ∀ ua mint, ∀ tx ∈ lockTxs (lockTargetAuthority e) ua mint l, P tx) :
    ∀ tx ∈ (lockAuthorities dry fk e c l outs).submissions, P tx := by
  intro tx htx
  rcases c with ⟨mc, ua⟩
  cases ua <;> cases mc <;>
    simp only [lockAuthorities, loadOrCreateUserAuth] at htx
  case none.none => simp at htx
  case some.none => simp at htx
  case none.some mint =>
    by_cases hx : l.accountExists mint = true
    · rw [if_pos hx] at htx
      exact h fk mint tx (submitAll_mem dry outs _ 0 tx htx)
    · rw [if_neg hx] at htx
      simp at htx
  case some.some k mint =>
    by_cases hx : l.accountExists mint = true
    · rw [if_pos hx] at htx
      exact h k mint tx (submitAll_mem dry outs _ 0 tx htx)
    · rw [if_neg hx] at htx
      simp at htx

/-- C8: Lock-Authorities is idempotent with respect to the resolved policy:
whenever a slot's current on-chain authority already equals the resolved
target, no submitted transaction touches that slot; and after
`AuthorityPolicy = None` has been applied (both authorities already `null` on
chain), the step submits nothing at all and performs no relayer POST. -/
theorem c8_lock_idempotent_per_slot (dry : Bool) (fk : Pubkey) (e : EnvVars) (c : Cache)
    (l : Ledger) (outs : Nat → Nat → AttemptOutcome) :
    (l.mintAuthority = lockTargetAuthority e →
      ∀ tx ∈ (lockAuthorities dry fk e c l outs).submissions,
        txSetsSlot "MintTokens" tx = false) ∧
    (l.freezeAuthority = lockTargetAuthority e →
      ∀ tx ∈ (lockAuthorities dry fk e c l outs).submissions,
        txSetsSlot "FreezeAccount" tx = false) ∧
    (l.mintAuthority = none → l.freezeAuthority = none →
      (lockAuthorities dry fk e c l outs).submissions = [] ∧
      (lockAuthorities dry fk e c l outs).relayPosts = 0) := by
  refine ⟨?_, ?_, ?_⟩
  · intro h
    exact lockAuthorities_submissions_from_lockTxs dry fk e c l outs _
      (fun ua mint => lockTxs_no_mint_slot (lockTargetAuthority e) ua mint l h)
  · intro h
    exact lockAuthorities_submissions_from_lockTxs dry fk e c l outs _
      (fun ua mint => lockTxs_no_freeze_slot (lockTargetAuthority e) ua mint l h)
  · intro h1 h2
    rcases c with ⟨mc, ua⟩
    cases ua <;> cases mc <;>
      simp [lockAuthorities, loadOrCreateUserAuth, lockTxs, h1, h2,
        needsAuthorityChange_none_current, submitAll] <;>
      split <;> simp

/-- A ledger where the mint exists and both authority slots are already at
the irreversible `null` target. -/
def lockedLedger : Ledger := ⟨fun a => a == "MINT", fun _ => 0, none, none⟩

/-- Witness for `c8_lock_idempotent_per_slot`: with policy `null` already
applied on chain, a second invocation submits nothing. -/
theorem c8_lock_idempotent_witness :
    (lockAuthorities false "U" baseEnv ⟨some "MINT", some "U"⟩ lockedLedger
      (fun _ _ => .accepted "SIG")).submissions = [] ∧
    (lockAuthorities false "U" baseEnv ⟨some "MINT", some "U"⟩ lockedLedger
      (fun _ _ => .accepted "SIG")).relayPosts = 0 :=
  (c8_lock_idempotent_per_slot false "U" baseEnv ⟨some "MINT", some "U"⟩ lockedLedger
    (fun _ _ => .accepted "SIG")).2.2 rfl rfl

lemma dispatch_env (inp : ActionInput) (e : EnvVars) (c : Cache) (ch : String) :
    (dispatch inp e c ch).1 = if ch == "7" then { e with dryRun := some "true" } else e := by
  unfold dispatch
  split_ifs with h1 h2 h3 h4 h5 h6 h7 h8 <;> simp_all

lemma dryRunEnabled_set (e : EnvVars) : dryRunEnabled { e with dryRun := some "true" } = true := by
  simp [dryRunEnabled]

lemma dispatch_posts_dry (inp : ActionInput) (e : EnvVars) (c : Cache) (ch : String)
    (h : e.dryRun = some "true") :
    (dispatch inp e c ch).2.2 = 0 := by
  have hd : dryRunEnabled e = true := by simp [dryRunEnabled, h]
  unfold dispatch
  split_ifs with h1 h2 h3 h4 h5 h6 h7 h8
  · rw [hd]; exact (runAllSteps_dry e inp c).2
  · rw [hd]; exact (createTokenMint_dry inp.freshKey inp.freshMint c inp.ledger inp.outsCreate).2
  · rw [hd]; exact (mintInitialSupply_dry inp.freshKey e c inp.ledger inp.outsMint).2
  · rw [hd]; exact (setTokenMetadata_dry inp.freshKey c inp.ledger inp.outsMeta).2
  · rw [hd]; exact (lockAuthorities_dry inp.freshKey e c inp.ledger inp.outsLock).2
  · rfl
  · show (runAllSteps (dryRunEnabled { e with dryRun := some "true" })
        { e with dryRun := some "true" } inp c).relayPosts = 0
    rw [dryRunEnabled_set]
    exact (runAllSteps_dry { e with dryRun := some "true" } inp c).2
  · rfl
  · rfl

lemma dispatch_posts_seven (inp : ActionInput) (e : EnvVars) (c : Cache) :
    (dispatch inp e c "7").2.2 = 0 := by
  show (runAllSteps (dryRunEnabled { e with dryRun := some "true" })
      { e with dryRun := some "true" } inp c).relayPosts = 0
  rw [dryRunEnabled_set]
  exact (runAllSteps_dry { e with dryRun := some "true" } inp c).2

lemma runSession_dry (inputs : Nat → ActionInput) :
    ∀ (chs : List String) (i : Nat) (e : EnvVars) (c : Cache), e.dryRun = some "true" →
      (runSession inputs i e c chs).2.2 = 0 ∧
      (runSession inputs i e c chs).1.dryRun = some "true" := by
  intro chs
  induction chs with
  | nil => intro i e c h; exact ⟨rfl, h⟩
  | cons ch rest ih =>
    intro i e c h
    by_cases h9 : (ch == "9") = true
    · simp only [runSession, if_pos h9]
      exact ⟨trivial, h⟩
    · simp only [runSession, if_neg h9]
      have henv : (dispatch (inputs i) e c ch).1.dryRun = some "true" := by
        rw [dispatch_env]
        by_cases h7 : (ch == "7") = true
        · rw [if_pos h7]
        · rw [if_neg h7]; exact h
      have hrest := ih (i + 1) (dispatch (inputs i) e c ch).1 (dispatch (inputs i) e c ch).2.1 henv
      refine ⟨?_, hrest.2⟩
      rw [dispatch_posts_dry (inputs i) e c ch h, hrest.1]

/-- C10: once the interactive dry-run action (choice 7) is selected, the
`DRY_RUN` flag is set in the mutable environment and no later action clears
it (each dispatch either leaves the flag unchanged or sets it to "true"), so
the session from that point on — whatever actions follow, including a full
deployment — performs zero real relayer POSTs and ends with the flag still
set. -/
theorem c10_dry_run_sticky (inputs : Nat → ActionInput) (i : Nat) (e : EnvVars) (c : Cache)
    (post : List String) :
    (runSession inputs i e c ("7" :: post)).2.2 = 0 ∧
    (runSession inputs i e c ("7" :: post)).1.dryRun = some "true" ∧
    (∀ (inp : ActionInput) (e2 : EnvVars) (c2 : Cache) (ch : String),
      (dispatch inp e2 c2 ch).1.dryRun = e2.dryRun ∨
      (dispatch inp e2 c2 ch).1.dryRun = some "true") := by
  have henv : (dispatch (inputs i) e c "7").1.dryRun = some "true" := by
    rw [dispatch_env]
    rfl
  have hrest := runSession_dry inputs post (i + 1) (dispatch (inputs i) e c "7").1
    (dispatch (inputs i) e c "7").2.1 henv
  refine ⟨?_, ?_, ?_⟩
  · simp only [runSession, if_neg (by decide : ¬(("7" : String) == "9") = true)]
    rw [dispatch_posts_seven, hrest.1]
  · simp only [runSession, if_neg (by decide : ¬(("7" : String) == "9") = true)]
    exact hrest.2
  · intro inp e2 c2 ch
    rw [dispatch_env]
    by_cases h7 : (ch == "7") = true
    · right; rw [if_pos h7]
    · left; rw [if_neg h7]

end StunningSolana
